import Mathlib

/-!
Shallow embedding of the encryption-client core of the fhevm-react-template
repository, centred on `fhevm-sdk/src/core/FhevmClient.ts`, together with a
spec-modelled rendering of the `retryWithBackoff` utility whose source file
(`fhevm-sdk/src/utils`) is not present, and an interleaving model of
concurrent `initialize()` calls.

The JavaScript `Error` values thrown by the client carry only a message
string, so errors are embedded as `String`; the distinct throw sites are
distinguished by their (distinct) message texts, fixed below as constants.
Network traffic to the injected provider and to the fhevmjs library is made
observable by returning, next to each operation's result, the list of remote
calls the operation performed.
-/

namespace Fhevm

/-- Message of the error thrown by `encrypt32` and `encrypt64` when
`!this.initialized || !this.instance` (FhevmClient.ts lines 70 and 89). -/
def notInitializedMsg : String := "FhevmClient not initialized. Call initialize() first."

/-- Prefix of the error message thrown when the remote encrypt call fails
(FhevmClient.ts lines 81 and 101): the original cause is appended. -/
def encryptFailPrefix : String := "Failed to encrypt value: "

/-- Prefix of the error message thrown when initialization fails
(FhevmClient.ts line 39): the original cause is appended. -/
def initFailPrefix : String := "Failed to initialize fhEVM: "

/-- Default ACL contract address used by `getPublicKey` when the config gives
none (FhevmClient.ts line 48). -/
def defaultAclAddress : String := "0x2Fb4341bc8584e3aB78068BcD8B1aC42E25BEED5"

/-- The placeholder public key `'0x'` that `getPublicKey` returns on every
path (FhevmClient.ts lines 59 and 62), and also the code string denoting a
missing contract. -/
def zeroHex : String := "0x"

/-- Ciphertext bytes; the payload of `Uint8Array` is abstracted to a list of
naturals. -/
def Ciphertext := List Nat

/-- The `EncryptedInput` interface of `fhevm-sdk/src/types/index.ts`. -/
structure EncryptedInput where
  data : List Nat
  handles : List Nat
deriving Repr, DecidableEq

/-- One observable remote call made through the injected provider or the
fhevmjs library. -/
inductive NetCall where
  | getNetwork : NetCall
  | getCode : String → NetCall
  | createInstanceCall : Nat → String → NetCall
  | encryptRemote : Nat → NetCall
deriving Repr, DecidableEq

/-- The slice of the fhevmjs instance the client uses: its `encrypt32`
operation, a remote call that yields ciphertext bytes or fails. -/
structure FhevmJsInstance where
  encrypt32 : Nat → Except String (List Nat)

/-- The external collaborators of the client: the ethers provider
(`getNetwork`, `getCode`) and fhevmjs (`createInstance`, taking chain id,
public key and optional gateway URL). Deterministic oracles suffice because
every operation consumes each of them at most once per attempt. -/
structure Env where
  getNetwork : Except String Nat
  getCode : String → Except String String
  createInstance : Nat → String → Option String → Except String FhevmJsInstance

/-- The `FhevmConfig` interface of `fhevm-sdk/src/types/index.ts` (the
`provider` field lives in `Env`). -/
structure FhevmConfig where
  network : String
  gatewayUrl : Option String := none
  aclAddress : Option String := none

/-- The mutable fields of the `FhevmClient` class: `instance` (here `inst`,
since `instance` is a Lean keyword), `config`, `initialized`. -/
structure FhevmClient where
  inst : Option FhevmJsInstance
  config : FhevmConfig
  initialized : Bool

/-- Embedding of `FhevmClient.getPublicKey` (FhevmClient.ts lines 46-64).
One `getCode` call on the ACL address; a missing contract raises an error
that the method's own catch block swallows (warn and return `'0x'`), a
provider failure is likewise swallowed, and even the success path returns
the placeholder `'0x'`. -/
def getPublicKey (env : Env) (config : FhevmConfig) : String × List NetCall :=
  match env.getCode (config.aclAddress.getD defaultAclAddress) with
  | Except.ok code =>
      if code = zeroHex then
        (zeroHex, [NetCall.getCode (config.aclAddress.getD defaultAclAddress)])
      else (zeroHex, [NetCall.getCode (config.aclAddress.getD defaultAclAddress)])
  | Except.error _ =>
      (zeroHex, [NetCall.getCode (config.aclAddress.getD defaultAclAddress)])

/-- Embedding of `FhevmClient.initialize` (FhevmClient.ts lines 20-41):
early return when already initialized; otherwise awaits `getNetwork`, then
`getPublicKey`, then `createInstance`, wrapping any failure's cause in the
`initFailPrefix` message. Returns the updated client, the outcome, and the
remote calls performed. -/
def initClient (env : Env) (c : FhevmClient) :
    FhevmClient × Except String Unit × List NetCall :=
  if c.initialized then (c, Except.ok (), [])
  else
    match env.getNetwork with
    | Except.error e =>
        (c, Except.error (initFailPrefix ++ e), [NetCall.getNetwork])
    | Except.ok chainId =>
        match env.createInstance chainId (getPublicKey env c.config).1
            c.config.gatewayUrl with
        | Except.error e =>
            (c, Except.error (initFailPrefix ++ e),
             NetCall.getNetwork :: (getPublicKey env c.config).2
               ++ [NetCall.createInstanceCall chainId (getPublicKey env c.config).1])
        | Except.ok inst =>
            ({ c with inst := some inst, initialized := true }, Except.ok (),
             NetCall.getNetwork :: (getPublicKey env c.config).2
               ++ [NetCall.createInstanceCall chainId (getPublicKey env c.config).1])

/-- Embedding of `FhevmClient.encrypt32` (FhevmClient.ts lines 69-84): throws
the not-initialized error before touching the instance when the client is not
ready; otherwise performs the single remote encrypt call, returning the
ciphertext with an empty `handles` list on success and the wrapped cause on
failure. -/
def encrypt32 (c : FhevmClient) (value : Nat) :
    Except String EncryptedInput × List NetCall :=
  match c.inst, c.initialized with
  | some inst, true =>
      match inst.encrypt32 value with
      | Except.ok data =>
          (Except.ok { data := data, handles := [] }, [NetCall.encryptRemote value])
      | Except.error e =>
          (Except.error (encryptFailPrefix ++ e), [NetCall.encryptRemote value])
  | _, _ => (Except.error notInitializedMsg, [])

/-- Embedding of `FhevmClient.encrypt64` (FhevmClient.ts lines 88-104): same
guard, then `this.instance.encrypt32(Number(value))`. The bigint argument is
embedded as a natural number; the JavaScript `Number` conversion is exact for
values below `2^53` and performs no reduction into the 32-bit range, so the
value is forwarded unchanged. -/
def encrypt64 (c : FhevmClient) (value : Nat) :
    Except String EncryptedInput × List NetCall :=
  match c.inst, c.initialized with
  | some inst, true =>
      match inst.encrypt32 value with
      | Except.ok data =>
          (Except.ok { data := data, handles := [] }, [NetCall.encryptRemote value])
      | Except.error e =>
          (Except.error (encryptFailPrefix ++ e), [NetCall.encryptRemote value])
  | _, _ => (Except.error notInitializedMsg, [])

/-- Modelled from the spec: the `retryWithBackoff` utility is declared in
`docs/api-reference.md` (retry an async function with exponential backoff,
`maxRetries` defaulting to 3 and `baseDelay` to 1000 ms) but its source file
`fhevm-sdk/src/utils` is absent from the repository snapshot. Per spec
section 4.1: attempt 1 is the initial try with no delay; on a failed attempt
`n`, if `n > maxRetries` the last error propagates unchanged, otherwise the
caller sleeps `baseDelay * 2 ^ (n - 1)` and retries. The attempt-indexed
oracle `fn` models the wrapped provider call. `retryGo` returns the outcome,
the list of delays slept (in order), and the number of attempts made;
`attempt` is the 1-based number of the attempt about to run and `remaining`
the number of retries still allowed after it. -/
def retryGo (fn : Nat → Except String α) (baseDelay : Nat) :
    Nat → Nat → Except String α × List Nat × Nat
  | attempt, remaining =>
    match fn attempt with
    | Except.ok a => (Except.ok a, [], 1)
    | Except.error e =>
        match remaining with
        | 0 => (Except.error e, [], 1)
        | r + 1 =>
            let rest := retryGo fn baseDelay (attempt + 1) r
            (rest.1, baseDelay * 2 ^ (attempt - 1) :: rest.2.1, rest.2.2 + 1)

/-- Modelled from the spec: entry point of the retry utility, starting at
attempt 1 with `maxRetries` retries still allowed. -/
def retryWithBackoff (fn : Nat → Except String α) (maxRetries baseDelay : Nat) :
    Except String α × List Nat × Nat :=
  retryGo fn baseDelay 1 maxRetries

/-!
Interleaving model of concurrent `initialize()` calls. JavaScript runs the
method single-threaded, suspending only at its `await` expressions: after
issuing `provider.getNetwork()`, after issuing `provider.getCode(...)`
inside `getPublicKey`, and after issuing `createInstance(...)` (whose
resumption performs the `this.instance` / `this.initialized` assignments).
A task's program counter records the next segment to run; two tasks share
one client and a schedule picks which task runs its next segment.
-/

/-- Program counter of one in-flight `initialize()` task, named by the await
it has most recently resumed from. -/
inductive TaskPC where
  | start : TaskPC
  | afterNetwork : TaskPC
  | afterKey : TaskPC
  | done : TaskPC
deriving Repr, DecidableEq

/-- One atomic segment of `initialize()` between suspension points, acting on
the shared client: `start` checks `initialized` and issues `getNetwork`;
`afterNetwork` issues `getCode`; `afterKey` issues `createInstance` and, on
success, performs the assignments. Returns the updated shared client, the
task's next program counter, and the remote calls issued by the segment. -/
def stepInit (env : Env) (c : FhevmClient) : TaskPC → FhevmClient × TaskPC × List NetCall
  | TaskPC.start =>
      if c.initialized then (c, TaskPC.done, [])
      else
        match env.getNetwork with
        | Except.error _ => (c, TaskPC.done, [NetCall.getNetwork])
        | Except.ok _ => (c, TaskPC.afterNetwork, [NetCall.getNetwork])
  | TaskPC.afterNetwork =>
      (c, TaskPC.afterKey, [NetCall.getCode (c.config.aclAddress.getD defaultAclAddress)])
  | TaskPC.afterKey =>
      match env.getNetwork with
      | Except.error _ => (c, TaskPC.done, [])
      | Except.ok chainId =>
          match env.createInstance chainId zeroHex c.config.gatewayUrl with
          | Except.error _ => (c, TaskPC.done, [NetCall.createInstanceCall chainId zeroHex])
          | Except.ok inst =>
              ({ c with inst := some inst, initialized := true }, TaskPC.done,
               [NetCall.createInstanceCall chainId zeroHex])
  | TaskPC.done => (c, TaskPC.done, [])

/-- Shared state of two concurrent `initialize()` tasks on one client,
with the cumulative log of remote calls. -/
structure TwoTasks where
  client : FhevmClient
  pc0 : TaskPC
  pc1 : TaskPC
  log : List NetCall

/-- Run one scheduling step: `false` advances task 0, `true` advances
task 1. -/
def twoStep (env : Env) (s : TwoTasks) : Bool → TwoTasks
  | true =>
      { s with client := (stepInit env s.client s.pc1).1,
               pc1 := (stepInit env s.client s.pc1).2.1,
               log := s.log ++ (stepInit env s.client s.pc1).2.2 }
  | false =>
      { s with client := (stepInit env s.client s.pc0).1,
               pc0 := (stepInit env s.client s.pc0).2.1,
               log := s.log ++ (stepInit env s.client s.pc0).2.2 }

/-- Run a whole schedule of picks. -/
def runTwo (env : Env) (s : TwoTasks) : List Bool → TwoTasks
  | [] => s
  | p :: ps => runTwo env (twoStep env s p) ps

/-- Number of `getNetwork` calls (the remote parameter-fetch of the session)
in a call log. -/
def getNetworkCount (log : List NetCall) : Nat :=
  (log.filter fun call =>
    match call with
    | NetCall.getNetwork => true
    | _ => false).length

/-!
Concrete fixtures used by witnesses and counterexamples: a stub fhevmjs
instance whose remote encrypt echoes the value as a one-byte ciphertext, a
failing instance, a config for the public test network, and environments for
the healthy provider, the provider whose `getCode` fails, and the provider
whose `getNetwork` fails.
-/

/-- Name of the public test network in the demo configuration. -/
def sepoliaName : String := "sepolia"

/-- A stub remote instance whose encrypt call always succeeds, returning the
value itself as a singleton ciphertext. -/
def demoInstance : FhevmJsInstance :=
  { encrypt32 := fun v => Except.ok [v] }

/-- Cause reported by the failing remote encrypt stub. -/
def timeoutMsg : String := "network timeout"

/-- A stub remote instance whose encrypt call always fails with a transient
network error. -/
def failingInstance : FhevmJsInstance :=
  { encrypt32 := fun _ => Except.error timeoutMsg }

/-- Demo configuration (network only, no overrides). -/
def demoConfig : FhevmConfig := { network := sepoliaName }

/-- A client that has never been initialized. -/
def freshClient : FhevmClient :=
  { inst := none, config := demoConfig, initialized := false }

/-- The client obtained by successfully initializing `freshClient` against
`okEnv`: holds `demoInstance` and is marked initialized. -/
def readyClient : FhevmClient :=
  { inst := some demoInstance, config := demoConfig, initialized := true }

/-- A ready client whose remote encrypt call always fails. -/
def failingClient : FhevmClient :=
  { inst := some failingInstance, config := demoConfig, initialized := true }

/-- Chain id reported by the healthy demo provider. -/
def demoChainId : Nat := 11155111

/-- Nonempty contract code reported by the healthy demo provider. -/
def demoCode : String := "0x6001"

/-- Cause reported by the broken provider stubs. -/
def offlineMsg : String := "provider offline"

/-- A healthy environment: the provider reports the chain id and nonempty
ACL code, and `createInstance` yields `demoInstance`. -/
def okEnv : Env :=
  { getNetwork := Except.ok demoChainId
    getCode := fun _ => Except.ok demoCode
    createInstance := fun _ _ _ => Except.ok demoInstance }

/-- An environment whose `getCode` call fails while everything else
succeeds: exercises the swallowed-error path of `getPublicKey`. -/
def codeDownEnv : Env :=
  { getNetwork := Except.ok demoChainId
    getCode := fun _ => Except.error offlineMsg
    createInstance := fun _ _ _ => Except.ok demoInstance }

/-- An environment whose `getNetwork` call fails. -/
def netDownEnv : Env :=
  { getNetwork := Except.error offlineMsg
    getCode := fun _ => Except.ok demoCode
    createInstance := fun _ _ _ => Except.ok demoInstance }

/-- Initial state of two concurrent `initialize()` tasks on a fresh
client. -/
def twoStart : TwoTasks :=
  { client := freshClient, pc0 := TaskPC.start, pc1 := TaskPC.start, log := [] }

/-!
Helper lemmas shared by the claim theorems.
-/

/-- A client already marked initialized returns immediately from
`initialize()` with no remote call and no state change. -/
theorem initClient_of_initialized (env : Env) (c : FhevmClient)
    (h : c.initialized = true) : initClient env c = (c, Except.ok (), []) := by
  simp [initClient, h]

/-- A failed `initialize()` leaves the client exactly as it was. -/
theorem initClient_error_eq (env : Env) (c c' : FhevmClient) (e : String)
    (ls : List NetCall) (h : initClient env c = (c', Except.error e, ls)) :
    c' = c := by
  unfold initClient at h
  split at h
  · simp at h
  · split at h
    · rw [Prod.mk.injEq] at h
      exact h.1.symm
    · split at h
      · rw [Prod.mk.injEq] at h
        exact h.1.symm
      · simp at h

/-- A successful `initialize()` leaves the client marked initialized. -/
theorem initClient_ok_initialized (env : Env) (c c' : FhevmClient)
    (ls : List NetCall) (h : initClient env c = (c', Except.ok (), ls)) :
    c'.initialized = true := by
  unfold initClient at h
  split at h
  · next hc =>
      rw [Prod.mk.injEq] at h
      rw [← h.1]
      exact hc
  · split at h
    · simp at h
    · split at h
      · simp at h
      · rw [Prod.mk.injEq] at h
        rw [← h.1]

/-- C1: for every session whose state is not Ready — the source's
`initialized` flag is `false` both before any initialization and after a
failed one, since `initClient_error_eq` shows failure leaves the client
unchanged — `encrypt32` and `encrypt64` fail fast with the not-initialized
error and perform no remote call: the returned call log is empty, so the
provider is never touched. -/
theorem encrypt_not_ready_fails_fast (c : FhevmClient) (v w : Nat)
    (h : c.initialized = false) :
    encrypt32 c v = (Except.error notInitializedMsg, []) ∧
    encrypt64 c w = (Except.error notInitializedMsg, []) := by
  obtain ⟨oi, cfg, init⟩ := c
  simp only at h
  subst h
  cases oi <;> simp [encrypt32, encrypt64]

/-- Witness for C1 at a concrete uninitialized client. -/
theorem encrypt_not_ready_fails_fast_witness :
    encrypt32 freshClient 5 = (Except.error notInitializedMsg, []) ∧
    encrypt64 freshClient 6 = (Except.error notInitializedMsg, []) :=
  encrypt_not_ready_fails_fast freshClient 5 6 rfl

/-- C5: `initialize()` is idempotent after success — a second call on the
client produced by a successful first call is a silent no-op performing zero
provider calls — and after a failure the client is unchanged, so calling
again re-runs the identical full initialization from scratch. -/
theorem initClient_idempotent (env : Env) (c : FhevmClient) :
    (∀ c' ls, initClient env c = (c', Except.ok (), ls) →
      initClient env c' = (c', Except.ok (), [])) ∧
    (∀ c' e ls, initClient env c = (c', Except.error e, ls) →
      c' = c ∧ initClient env c' = initClient env c) := by
  constructor
  · intro c' ls h
    exact initClient_of_initialized env c' (initClient_ok_initialized env c c' ls h)
  · intro c' e ls h
    have hc := initClient_error_eq env c c' e ls h
    exact ⟨hc, by rw [hc]⟩

/-- Witness for C5: a concrete successful initialization followed by a
second call that is a no-op with an empty call log. -/
theorem initClient_idempotent_witness :
    initClient okEnv readyClient = (readyClient, Except.ok (), []) :=
  (initClient_idempotent okEnv freshClient).1 readyClient
    [NetCall.getNetwork, NetCall.getCode defaultAclAddress,
     NetCall.createInstanceCall demoChainId zeroHex] rfl

/-- C10: every successful `encrypt32` or `encrypt64` call returns an
`EncryptedInput` whose `handles` sequence is empty — the client hands no
remote handle identifiers to the caller, only ciphertext bytes. -/
theorem encrypt_handles_empty (c : FhevmClient) (v : Nat) (r : EncryptedInput)
    (ls : List NetCall) :
    (encrypt32 c v = (Except.ok r, ls) → r.handles = []) ∧
    (encrypt64 c v = (Except.ok r, ls) → r.handles = []) := by
  obtain ⟨oi, cfg, init⟩ := c
  constructor <;> intro h
  · rcases oi with _ | i
    · simp [encrypt32] at h
    · cases init
      · simp [encrypt32] at h
      · rcases he : i.encrypt32 v with e | dt <;> simp [encrypt32, he] at h
        rw [← h.1]
  · rcases oi with _ | i
    · simp [encrypt64] at h
    · cases init
      · simp [encrypt64] at h
      · rcases he : i.encrypt32 v with e | dt <;> simp [encrypt64, he] at h
        rw [← h.1]

/-- Witness for C10 at a concrete ready client: the successful result has an
empty handles list. -/
theorem encrypt_handles_empty_witness :
    encrypt32 readyClient 5
      = (Except.ok { data := [5], handles := [] }, [NetCall.encryptRemote 5]) ∧
    EncryptedInput.handles { data := [5], handles := [] } = [] :=
  ⟨rfl, (encrypt_handles_empty readyClient 5 { data := [5], handles := [] }
    [NetCall.encryptRemote 5]).1 rfl⟩

/-- C3: under the spec-modelled retry utility with `maxRetries = 3`, an
operation that fails on every attempt is tried exactly 4 times (1 initial
plus 3 retries) and the error finally propagated is exactly the error
produced by the 4th attempt, unchanged. -/
theorem retry_exhaustion (errf : Nat → String) (d : Nat) :
    (retryWithBackoff (fun n => (Except.error (errf n) : Except String Nat)) 3 d).1
        = Except.error (errf 4) ∧
    (retryWithBackoff (fun n => (Except.error (errf n) : Except String Nat)) 3 d).2.2
        = 4 := by
  constructor <;> rfl

/-- Unfolding of the retry loop at zero remaining retries when the attempt
fails: the error propagates unchanged after a single attempt. -/
theorem retryGo_err_zero (e : String) (d attempt : Nat) :
    retryGo (fun _ => (Except.error e : Except String Nat)) d attempt 0
      = (Except.error e, [], 1) := rfl

/-- Unfolding of the retry loop at `r + 1` remaining retries when the attempt
fails: sleep `d * 2 ^ (attempt - 1)` and continue at the next attempt. -/
theorem retryGo_err_step (e : String) (d attempt r : Nat) :
    retryGo (fun _ => (Except.error e : Except String Nat)) d attempt (r + 1)
      = ((retryGo (fun _ => (Except.error e : Except String Nat)) d
            (attempt + 1) r).1,
         d * 2 ^ (attempt - 1)
           :: (retryGo (fun _ => (Except.error e : Except String Nat)) d
                 (attempt + 1) r).2.1,
         (retryGo (fun _ => (Except.error e : Except String Nat)) d
            (attempt + 1) r).2.2 + 1) := rfl

/-- Delays slept by the retry loop when every attempt fails: starting at
attempt `attempt + 1` with `remaining` retries allowed, the delays are
`d * 2 ^ (attempt + k)` for `k` ranging over the retries, in order. -/
theorem retryGo_fail_delays (e : String) (d : Nat) :
    ∀ remaining attempt,
      (retryGo (fun _ => (Except.error e : Except String Nat)) d
          (attempt + 1) remaining).2.1
        = (List.range remaining).map (fun k => d * 2 ^ (attempt + k)) := by
  intro remaining
  induction remaining with
  | zero =>
      intro attempt
      rw [retryGo_err_zero]
      simp
  | succ r ih =>
      intro attempt
      rw [retryGo_err_step]
      dsimp only
      rw [ih (attempt + 1), List.range_succ_eq_map, List.map_cons, List.map_map]
      refine congrArg₂ List.cons ?_ ?_
      · simp
      · apply List.map_congr_left
        intro k _
        simp only [Function.comp_apply]
        have hek : attempt + 1 + k = attempt + Nat.succ k := by omega
        rw [hek]

/-- Number of attempts made by the retry loop when every attempt fails: one
more than the retries allowed. -/
theorem retryGo_fail_attempts (e : String) (d : Nat) :
    ∀ remaining attempt,
      (retryGo (fun _ => (Except.error e : Except String Nat)) d
          attempt remaining).2.2 = remaining + 1 := by
  intro remaining
  induction remaining with
  | zero => intro attempt; rfl
  | succ r ih =>
      intro attempt
      rw [retryGo_err_step]
      dsimp only
      rw [ih (attempt + 1)]

/-- C2: under the spec-modelled retry utility, for every base delay `d > 0`
and attempt number `n` with `1 ≤ n ≤ maxRetries`, the delay slept before
attempt `n + 1` (the `(n-1)`-th entry of the delay list) is exactly
`d * 2 ^ (n - 1)`; and the delay list has one entry fewer than the number of
attempts, so attempt 1 — the initial try — incurs no delay. -/
theorem backoff_law (d maxR n : Nat) (e : String) (hd : 0 < d)
    (h1 : 1 ≤ n) (hn : n ≤ maxR) :
    ((retryWithBackoff (fun _ => (Except.error e : Except String Nat))
        maxR d).2.1)[n - 1]? = some (d * 2 ^ (n - 1)) ∧
    (retryWithBackoff (fun _ => (Except.error e : Except String Nat))
        maxR d).2.1.length
      = (retryWithBackoff (fun _ => (Except.error e : Except String Nat))
          maxR d).2.2 - 1 := by
  have hdel := retryGo_fail_delays e d maxR 0
  have hatt := retryGo_fail_attempts e d maxR 1
  constructor
  · rw [retryWithBackoff]
    rw [show (1 : Nat) = 0 + 1 from rfl, hdel]
    rw [List.getElem?_map]
    rw [List.getElem?_range (by omega : n - 1 < maxR)]
    simp
  · rw [retryWithBackoff, hatt]
    rw [show (1 : Nat) = 0 + 1 from rfl, hdel]
    simp

/-- Witness for C2 at `d = 1000`, `maxRetries = 3`, `n = 2`: the delay before
attempt 3 is 2000 ms. -/
theorem backoff_law_witness :
    ((retryWithBackoff (fun _ => (Except.error timeoutMsg : Except String Nat))
        3 1000).2.1)[2 - 1]? = some (1000 * 2 ^ (2 - 1)) ∧
    (retryWithBackoff (fun _ => (Except.error timeoutMsg : Except String Nat))
        3 1000).2.1.length
      = (retryWithBackoff (fun _ => (Except.error timeoutMsg : Except String Nat))
          3 1000).2.2 - 1 :=
  backoff_law 1000 3 2 timeoutMsg (by decide) (by decide) (by decide)

/-- C4 counterexample: on a Ready session whose remote encrypt call fails
transiently, `encrypt32` performs exactly one remote call — it is not
re-attempted under any retry policy — and the propagated error is the
string-wrapped cause, not an `EncryptionError` carrying an attempt count;
with the default `maxRetries = 3` the claim would demand 4 attempts. -/
theorem encrypt_no_retry_counterexample :
    encrypt32 failingClient 7
      = (Except.error (encryptFailPrefix ++ timeoutMsg), [NetCall.encryptRemote 7]) ∧
    (encrypt32 failingClient 7).2.length = 1 ∧ (1 : Nat) ≠ 4 :=
  ⟨rfl, rfl, by decide⟩

/-- C4 amended: on a Ready session, `encrypt32` issues exactly one remote
encrypt call (no retry, no backoff), and when the provider fails the
operation fails with the `encryptFailPrefix` message carrying the original
cause (and no attempt count). -/
theorem encrypt_single_attempt (c : FhevmClient) (i : FhevmJsInstance) (v : Nat)
    (hi : c.inst = some i) (hr : c.initialized = true) :
    (encrypt32 c v).2.length = 1 ∧
    (∀ e, i.encrypt32 v = Except.error e →
      (encrypt32 c v).1 = Except.error (encryptFailPrefix ++ e)) := by
  obtain ⟨oi, cfg, init⟩ := c
  simp only at hi hr
  subst hi; subst hr
  constructor
  · rcases he : i.encrypt32 v with e | dt <;> simp [encrypt32, he]
  · intro e he
    simp [encrypt32, he]

/-- Witness for C4 amended at the concrete failing client. -/
theorem encrypt_single_attempt_witness :
    (encrypt32 failingClient 7).2.length = 1 ∧
    (encrypt32 failingClient 7).1 = Except.error (encryptFailPrefix ++ timeoutMsg) :=
  ⟨(encrypt_single_attempt failingClient failingInstance 7 rfl rfl).1,
   (encrypt_single_attempt failingClient failingInstance 7 rfl rfl).2 timeoutMsg rfl⟩

/-- C6 counterexample: on a Ready session whose provider accepts any value,
`encrypt32` applied to `2 ^ 32` succeeds and performs a remote call — it
does not fail with `InvalidInput`, and the network is touched — refuting the
claimed boundary check at `value = 2 ^ 32`. -/
theorem range_check_counterexample :
    encrypt32 readyClient (2 ^ 32)
      = (Except.ok { data := [2 ^ 32], handles := [] },
         [NetCall.encryptRemote (2 ^ 32)]) ∧
    [NetCall.encryptRemote (2 ^ 32)] ≠ ([] : List NetCall) :=
  ⟨rfl, by simp⟩

/-- C6 amended: `encrypt32` enforces no range precondition at all: on a Ready
session every value — in range or not, including `2 ^ 32` — is forwarded
unchanged to the remote provider in a single network call, and the operation
succeeds exactly when the provider does (there is no `InvalidInput` path);
in particular the boundary values 0 and `2 ^ 32 - 1` succeed whenever the
provider accepts them, and so does `2 ^ 32`. -/
theorem encrypt32_no_range_check (c : FhevmClient) (i : FhevmJsInstance) (v : Nat)
    (hi : c.inst = some i) (hr : c.initialized = true) :
    (encrypt32 c v).2 = [NetCall.encryptRemote v] ∧
    (∀ dt, i.encrypt32 v = Except.ok dt →
      (encrypt32 c v).1 = Except.ok { data := dt, handles := [] }) := by
  obtain ⟨oi, cfg, init⟩ := c
  simp only at hi hr
  subst hi; subst hr
  constructor
  · rcases he : i.encrypt32 v with e | dt <;> simp [encrypt32, he]
  · intro dt he
    simp [encrypt32, he]

/-- Witness for C6 amended at `value = 2 ^ 32` on the concrete ready
client. -/
theorem encrypt32_no_range_check_witness :
    (encrypt32 readyClient (2 ^ 32)).2 = [NetCall.encryptRemote (2 ^ 32)] ∧
    (encrypt32 readyClient (2 ^ 32)).1
      = Except.ok { data := [2 ^ 32], handles := [] } :=
  ⟨(encrypt32_no_range_check readyClient demoInstance (2 ^ 32) rfl rfl).1,
   (encrypt32_no_range_check readyClient demoInstance (2 ^ 32) rfl rfl).2
     [2 ^ 32] rfl⟩

/-- C8 counterexample: `encrypt64` applied to `2 ^ 32` on a Ready session
hands exactly `2 ^ 32` to the remote 32-bit encrypt call — a value not in
`[0, 2 ^ 32)` — so no narrowing into the 32-bit range happens before the
remote call. -/
theorem narrowing_counterexample :
    (encrypt64 readyClient (2 ^ 32)).2 = [NetCall.encryptRemote (2 ^ 32)] ∧
    ¬ ((2 ^ 32 : Nat) < 2 ^ 32) :=
  ⟨rfl, by simp⟩

/-- C8 amended: `encrypt64` performs no narrowing: for every value on which
the JavaScript `Number` conversion is exact (below `2 ^ 53`), the value
handed to the single 32-bit remote encrypt call equals the input value
itself, whether or not it lies in `[0, 2 ^ 32)`. -/
theorem encrypt64_forwards_value (c : FhevmClient) (i : FhevmJsInstance) (v : Nat)
    (hi : c.inst = some i) (hr : c.initialized = true) (hv : v < 2 ^ 53) :
    (encrypt64 c v).2 = [NetCall.encryptRemote v] := by
  obtain ⟨oi, cfg, init⟩ := c
  simp only at hi hr
  subst hi; subst hr
  rcases he : i.encrypt32 v with e | dt <;> simp [encrypt64, he]

/-- Witness for C8 amended at `value = 2 ^ 32`. -/
theorem encrypt64_forwards_value_witness :
    (encrypt64 readyClient (2 ^ 32)).2 = [NetCall.encryptRemote (2 ^ 32)] :=
  encrypt64_forwards_value readyClient demoInstance (2 ^ 32) rfl rfl (by norm_num)

/-- C7 counterexample: against a provider whose `getCode` call fails,
initialization nevertheless succeeds silently — it reaches the Ready state
handing the placeholder key material `'0x'` to `createInstance` — so the
failure of the remote public-parameter fetch is swallowed rather than
surfaced as a typed initialization error. -/
theorem swallowed_error_counterexample :
    initClient codeDownEnv freshClient
      = (readyClient, Except.ok (),
         [NetCall.getNetwork, NetCall.getCode defaultAclAddress,
          NetCall.createInstanceCall demoChainId zeroHex]) ∧
    codeDownEnv.getCode defaultAclAddress = Except.error offlineMsg :=
  ⟨rfl, rfl⟩

/-- C7 amended: failures of the network query and of instance creation do
surface as an initialization error carrying the original cause, but the
public-key fetch never propagates any failure: `getPublicKey` returns the
placeholder `'0x'` on every path — provider error, missing contract, and
success alike — so a failed or structurally empty key fetch leads to a
silent success with placeholder data rather than an error. -/
theorem init_failure_surfacing (env : Env) (c : FhevmClient) :
    getPublicKey env c.config
      = (zeroHex, [NetCall.getCode (c.config.aclAddress.getD defaultAclAddress)]) ∧
    (∀ e, c.initialized = false → env.getNetwork = Except.error e →
      (initClient env c).2.1 = Except.error (initFailPrefix ++ e)) ∧
    (∀ chainId e, c.initialized = false → env.getNetwork = Except.ok chainId →
      env.createInstance chainId zeroHex c.config.gatewayUrl = Except.error e →
      (initClient env c).2.1 = Except.error (initFailPrefix ++ e)) := by
  have hpk : getPublicKey env c.config
      = (zeroHex, [NetCall.getCode (c.config.aclAddress.getD defaultAclAddress)]) := by
    rcases hg : env.getCode (c.config.aclAddress.getD defaultAclAddress) with e | code <;>
      simp [getPublicKey, hg]
  refine ⟨hpk, ?_, ?_⟩
  · intro e hc hn
    simp [initClient, hc, hn]
  · intro chainId e hc hn hci
    simp [initClient, hc, hn, hpk, hci]

/-- Witness for C7 amended: the concrete offline provider makes
initialization fail with the wrapped cause, and the key fetch against it
still reports the placeholder. -/
theorem init_failure_surfacing_witness :
    (initClient netDownEnv freshClient).2.1
      = Except.error (initFailPrefix ++ offlineMsg) ∧
    getPublicKey netDownEnv freshClient.config
      = (zeroHex, [NetCall.getCode defaultAclAddress]) :=
  ⟨(init_failure_surfacing netDownEnv freshClient).2.1 offlineMsg rfl rfl,
   (init_failure_surfacing netDownEnv freshClient).1⟩

/-- C9 counterexample: two `initialize()` calls interleaved before the first
completes — the schedule lets each task run its entry segment before either
finishes — issue the remote parameter fetch twice, not once, because the
`initialized` check passes in both tasks before either sets the flag. -/
theorem concurrent_init_counterexample :
    getNetworkCount (runTwo okEnv twoStart
        [false, true, false, false, true, true]).log = 2 ∧
    (2 : Nat) ≠ 1 :=
  ⟨rfl, by decide⟩

/-- Remaining parameter-fetch allowance of a task: a task at its entry
segment may still issue one `getNetwork` call; a task past it never issues
another. -/
def netBudget : TaskPC → Nat
  | TaskPC.start => 1
  | _ => 0

/-- The parameter-fetch count distributes over concatenated logs. -/
theorem getNetworkCount_append (l1 l2 : List NetCall) :
    getNetworkCount (l1 ++ l2) = getNetworkCount l1 + getNetworkCount l2 := by
  simp [getNetworkCount, List.filter_append]

/-- One segment of an `initialize()` task spends at most its remaining
parameter-fetch allowance. -/
theorem stepInit_net_bound (env : Env) (c : FhevmClient) (pc : TaskPC) :
    getNetworkCount (stepInit env c pc).2.2 + netBudget (stepInit env c pc).2.1
      ≤ netBudget pc := by
  cases pc with
  | start =>
      by_cases hi : c.initialized
      · simp [stepInit, hi, netBudget, getNetworkCount]
      · rcases hg : env.getNetwork with e | chainId <;>
          simp [stepInit, hi, hg, netBudget, getNetworkCount]
  | afterNetwork => simp [stepInit, netBudget, getNetworkCount]
  | afterKey =>
      rcases hg : env.getNetwork with e | chainId
      · simp [stepInit, hg, netBudget, getNetworkCount]
      · rcases hc2 : env.createInstance chainId zeroHex c.config.gatewayUrl with e | i <;>
          simp [stepInit, hg, hc2, netBudget, getNetworkCount]
  | done => simp [stepInit, netBudget, getNetworkCount]

/-- Along any schedule, the parameter-fetch count plus the tasks' remaining
allowances never increases. -/
theorem runTwo_net_bound (env : Env) :
    ∀ (sched : List Bool) (s : TwoTasks),
      getNetworkCount (runTwo env s sched).log
          + netBudget (runTwo env s sched).pc0
          + netBudget (runTwo env s sched).pc1
        ≤ getNetworkCount s.log + netBudget s.pc0 + netBudget s.pc1 := by
  intro sched
  induction sched with
  | nil => intro s; simp [runTwo]
  | cons p ps ih =>
      intro s
      have hstep : getNetworkCount (twoStep env s p).log
          + netBudget (twoStep env s p).pc0 + netBudget (twoStep env s p).pc1
          ≤ getNetworkCount s.log + netBudget s.pc0 + netBudget s.pc1 := by
        cases p
        · have hb := stepInit_net_bound env s.client s.pc0
          simp only [twoStep, getNetworkCount_append]
          omega
        · have hb := stepInit_net_bound env s.client s.pc1
          simp only [twoStep, getNetworkCount_append]
          omega
      exact le_trans (ih (twoStep env s p)) hstep

/-- C9 amended: the source deduplicates only completed initializations: a
caller arriving after a finished initialization triggers no further
parameter fetch (second conjunct: a serialized schedule fetches exactly
once), but callers arriving while an initialization is in flight each issue
their own fetch — the fetch count is bounded only by the number of callers
(first conjunct: with two concurrent callers at most two fetches), and
`concurrent_init_counterexample` shows the bound of two is reached, so
at-most-one in-flight initialization is not guaranteed. -/
theorem concurrent_init_bound :
    (∀ sched : List Bool,
      getNetworkCount (runTwo okEnv twoStart sched).log ≤ 2) ∧
    getNetworkCount (runTwo okEnv twoStart [false, false, false, true]).log = 1 := by
  constructor
  · intro sched
    have h := runTwo_net_bound okEnv sched twoStart
    have hstart : getNetworkCount twoStart.log + netBudget twoStart.pc0
        + netBudget twoStart.pc1 = 2 := rfl
    omega
  · rfl

end Fhevm
